import Mathlib

/-!
Verification development for the voice-driven authentication form of the
AI-AUDIT-AND-TAX-ASSISTANT repository.

The embedding models JavaScript strings as `List Char`.  The relevant source
modules are:

* `frontend/src/hooks/useVoiceRecognition.ts` — the Recognition Session: a
  state machine driven by speech-engine events (`onstart`, `onresult`,
  `onerror`, `onend`) and the public operations `startListening`,
  `stopListening`, `resetTranscript`.
* `frontend/src/hooks/useVoiceCommands.ts` — the Transcript Gate (the
  `useEffect` on `transcript` with `lastTranscriptRef`) and the Command
  Interpreter (`processVoiceCommand`).
* `RegisterPage` / `LoginPage` — the caller-supplied callbacks, including the
  guarded submit handlers and the caller-side email/password normalization.

JavaScript string operations are embedded as follows: `includes pat` is
`pat <:+: s` (substring occurrence), `startsWith pat` is `pat <+: s`,
`replace(pat, repl)` with a string pattern replaces only the first
occurrence (`replaceFirst`), `trim()` strips leading/trailing whitespace,
`toLowerCase()` maps ASCII letters to lower case.
-/

namespace VoiceAssistant

/-- JS `s.replace(pat, repl)` with a *string* pattern: replace only the first
occurrence of `pat` in `s` (if `pat` does not occur, `s` is unchanged;
an empty pattern matches at position 0). -/
def replaceFirst (pat repl : List Char) : List Char → List Char
  | [] => if pat.isPrefixOf ([] : List Char) then repl else []
  | c :: rest =>
    if pat.isPrefixOf (c :: rest) then repl ++ (c :: rest).drop pat.length
    else c :: replaceFirst pat repl rest

/-- JS `s.trim()`: strip leading and trailing whitespace. -/
def trim (s : List Char) : List Char :=
  (s.dropWhile Char.isWhitespace).rdropWhile Char.isWhitespace

/-- JS `s.toLowerCase()` (ASCII range, which is all the transcripts use). -/
def strToLower (s : List Char) : List Char :=
  s.map Char.toLower

/-- The form fields voice commands can target
(`currentFieldRef` in `useVoiceCommands.ts` ranges over these or `null`). -/
inductive Field
  | name
  | email
  | password
  | confirmPassword
deriving DecidableEq, Repr

/-- The discriminated result of interpreting one transcript: which branch of
`processVoiceCommand` fired and with which extracted value. -/
inductive Cmd
  | goToSignUp
  | signIn
  | signUp
  | next
  | selectField (f : Field) (inlineValue : List Char)
  | directInput (f : Field) (value : List Char)
  | noOp
deriving DecidableEq, Repr

/-- The Command Interpreter: `processVoiceCommand` from
`useVoiceCommands.ts` (lines 32–114), as a pure classification of the
lower-cased transcript given the current field context.  Each branch mirrors
one `if` of the source, in source order. -/
def processVoiceCommand (currentField : Option Field) (command : List Char) : Cmd :=
  if ("go to sign up".toList <:+: command) ∨ ("signup page".toList <:+: command) then
    .goToSignUp
  else if ("sign in".toList <:+: command) ∧ ¬ ("go to".toList <:+: command) then
    .signIn
  else if ("sign up".toList <:+: command) ∧ ¬ ("go to".toList <:+: command) then
    .signUp
  else if ("next".toList <:+: command) then
    .next
  else if ("name".toList <+: command) then
    .selectField .name (trim (replaceFirst "name".toList [] command))
  else if ("email".toList <+: command) then
    .selectField .email (trim (replaceFirst "email".toList [] command))
  else if ("password".toList <+: command) ∧ ¬ ("confirm".toList <:+: command) then
    .selectField .password (trim (replaceFirst "password".toList [] command))
  else if ("confirm password".toList <+: command) then
    .selectField .confirmPassword (trim (replaceFirst "confirm password".toList [] command))
  else
    match currentField with
    | some f => if command ≠ [] then .directInput f command else .noOp
    | none => .noOp

/-- The callbacks of the `VoiceCommandsConfig`. -/
inductive CB
  | name
  | email
  | password
  | confirmPassword
  | signIn
  | signUp
  | goToSignUp
  | next
deriving DecidableEq, Repr

/-- Which callbacks a command's application invokes, in order, with the string
argument passed (navigation callbacks take no argument, recorded as `[]`).
`hasName` / `hasConfirm` model whether the optional callbacks
`onNameCommand` / `onConfirmPasswordCommand` are provided in the config
(the source guards those invocations on their presence). -/
def invoked (hasName hasConfirm : Bool) : Cmd → List (CB × List Char)
  | .goToSignUp => [(.goToSignUp, [])]
  | .signIn => [(.signIn, [])]
  | .signUp => [(.signUp, [])]
  | .next => [(.next, [])]
  | .selectField f v =>
    match f with
    | .name => if v ≠ [] ∧ hasName then [(.name, v)] else []
    | .email => if v ≠ [] then [(.email, v)] else []
    | .password => if v ≠ [] then [(.password, v)] else []
    | .confirmPassword => if v ≠ [] ∧ hasConfirm then [(.confirmPassword, v)] else []
  | .directInput f v =>
    match f with
    | .name => if hasName then [(.name, v)] else []
    | .email => [(.email, v)]
    | .password => [(.password, v)]
    | .confirmPassword => if hasConfirm then [(.confirmPassword, v)] else []
  | .noOp => []

/-- The mutation of `currentFieldRef` performed by applying a command: only the
field-selection branches assign it (`currentFieldRef.current = …`); navigation,
direct input and the no-op leave it unchanged. -/
def fieldAfter (cf : Option Field) : Cmd → Option Field
  | .selectField f _ => some f
  | _ => cf

/-! ## Recognition Session (`useVoiceRecognition.ts`)

The hook's state (`isListening`, `transcript`, `isSupported`,
`recognitionRef`) plus bookkeeping for scheduled no-speech retry timers and
engine `start()` invocations, driven by a step function over the engine
events and the hook's public operations.  `recognitionRef.current` is
non-null exactly when the environment is supported (the mount effect returns
early otherwise), so the `recognitionRef.current && …` guards are embedded
as `isSupported && …`. -/

/-- State of one mounted `useVoiceRecognition` instance.
`pendingRetries` counts scheduled (not yet fired) no-speech retry timers;
`autoStarts` counts engine `start()` invocations made by the retry timer;
`startCalls` counts all engine `start()` invocations. -/
structure RecState where
  isSupported : Bool
  isListening : Bool
  transcript : List Char
  pendingRetries : Nat
  autoStarts : Nat
  startCalls : Nat
deriving DecidableEq, Repr

/-- Initial hook state: not listening, empty transcript, nothing scheduled. -/
def initRec (supported : Bool) : RecState :=
  { isSupported := supported, isListening := false, transcript := []
    pendingRetries := 0, autoStarts := 0, startCalls := 0 }

/-- Events of the recognition session: the four engine callbacks, the firing
of a scheduled no-speech retry timer, and the hook's public operations.
`startThrows` models the engine's `start()` primitive throwing synchronously
at that invocation. -/
inductive RecEv
  | onstart
  | onresult (isFinal : Bool) (text : List Char)
  | onerror (kind : List Char)
  | onend
  | retryTimer (startThrows : Bool)
  | startListening (startThrows : Bool)
  | stopListening
  | resetTranscript
deriving DecidableEq, Repr

/-- One step of the recognition session, mirroring the handlers in
`useVoiceRecognition.ts`:

* `onstart` sets `isListening := true` (line 31);
* `onresult` sets `transcript` to the trimmed text when the result is final,
  and touches nothing else — in particular not `isListening` (lines 35–40);
* `onerror` sets `isListening := false` and, for kind `no-speech`, schedules
  one delayed retry (lines 42–58);
* `onend` sets `isListening := false` (line 60);
* `retryTimer` fires one scheduled retry: guarded by
  `recognitionRef.current && !isListening`, it invokes engine `start()`; a
  synchronous throw there is caught and only logged (lines 48–56);
* `startListening`: when supported and not listening, clears the transcript
  and invokes engine `start()`; a synchronous throw is caught and
  `isListening` forced false (lines 71–81);
* `stopListening` only calls the engine's `stop()` primitive (state changes
  arrive via the later `onend` event) (lines 83–87);
* `resetTranscript` clears the transcript only (lines 89–91). -/
def recStep (s : RecState) : RecEv → RecState
  | .onstart => { s with isListening := true }
  | .onresult isFinal text =>
    if isFinal then { s with transcript := trim text } else s
  | .onerror kind =>
    let s1 := { s with isListening := false }
    if kind = "no-speech".toList then
      { s1 with pendingRetries := s1.pendingRetries + 1 }
    else s1
  | .onend => { s with isListening := false }
  | .retryTimer _startThrows =>
    if s.pendingRetries = 0 then s
    else
      let s1 := { s with pendingRetries := s.pendingRetries - 1 }
      if s1.isSupported ∧ ¬ s1.isListening then
        { s1 with autoStarts := s1.autoStarts + 1, startCalls := s1.startCalls + 1 }
      else s1
  | .startListening startThrows =>
    if s.isSupported ∧ ¬ s.isListening then
      let s1 := { s with transcript := [], startCalls := s.startCalls + 1 }
      if startThrows then { s1 with isListening := false } else s1
    else s
  | .stopListening => s
  | .resetTranscript => { s with transcript := [] }

/-- Run a trace of events from a state. -/
def recRun (s : RecState) (evs : List RecEv) : RecState :=
  evs.foldl recStep s

/-! ## Transcript Gate (`useVoiceCommands.ts`, lines 17–30)

The `useEffect` on `transcript`: a non-empty transcript differing from
`lastTranscriptRef.current` is recorded as admitted, lower-cased and handed
to `processVoiceCommand`, and a reset of the recognition transcript is
scheduled.  The gate state also carries `currentFieldRef` and an append-only
log of forwarded transcripts and invoked callbacks, so that "invoked exactly
once" is expressible. -/

/-- Gate state: the dedup record, the field context, and observation logs. -/
structure GateState where
  lastTranscript : List Char
  currentField : Option Field
  forwarded : List (List Char)
  calls : List (CB × List Char)
deriving DecidableEq, Repr

/-- Initial gate state: `lastTranscriptRef` starts as `''`,
`currentFieldRef` as `null`. -/
def initGate : GateState :=
  { lastTranscript := [], currentField := none, forwarded := [], calls := [] }

/-- The gate observing one value of `transcript` (the body of the
`useEffect`): if the value is non-empty and differs from the last admitted
one, record it, interpret its lower-casing, apply the resulting command to
the field context and log the callbacks it invokes; otherwise do nothing. -/
def gateObserve (hasName hasConfirm : Bool) (g : GateState) (t : List Char) : GateState :=
  if t ≠ [] ∧ t ≠ g.lastTranscript then
    let cmd := processVoiceCommand g.currentField (strToLower t)
    { lastTranscript := t
      currentField := fieldAfter g.currentField cmd
      forwarded := g.forwarded ++ [strToLower t]
      calls := g.calls ++ invoked hasName hasConfirm cmd }
  else g

/-- The primitive statements the gate's effect body executes on an admitted
transcript, used to state in which order the dedup record is updated and the
interpreter runs. -/
inductive GateAction
  | updateLast (t : List Char)
  | interpret (t : List Char)
  | scheduleReset
deriving DecidableEq, Repr

/-- The effect body of `useVoiceCommands.ts` lines 20–30 as the ordered list
of primitive actions it performs, given the current dedup record and the
observed transcript: on admission it (1) assigns `lastTranscriptRef.current`,
(2) calls `processVoiceCommand` on the lower-cased transcript, (3) schedules
the transcript reset. -/
def gateEffectActions (last t : List Char) : List GateAction :=
  if t ≠ [] ∧ t ≠ last then
    [.updateLast t, .interpret (strToLower t), .scheduleReset]
  else []

/-! ## Form callbacks (`RegisterPage` and `LoginPage`)

The caller-supplied command callbacks that guard voice-triggered submission,
and the caller-side value normalization. -/

/-- JS `s.replace(/\s+/g, '')`: remove all whitespace. -/
def stripWhitespace (s : List Char) : List Char :=
  s.filter (fun c => ¬ c.isWhitespace)

/-- `RegisterPage.onEmailCommand` / `LoginPage.onEmailCommand` normalization:
`emailText.replace(/\s+/g, '').toLowerCase()`. -/
def normalizeEmail (s : List Char) : List Char :=
  strToLower (stripWhitespace s)

/-- The registration form's data and focus state (`RegisterPage`). -/
structure RegForm where
  name : List Char
  email : List Char
  password : List Char
  confirmPassword : List Char
  currentField : Field
  submits : Nat
deriving DecidableEq, Repr

/-- `RegisterPage.onSignUpCommand` (lines 52–56): submit only when all four
fields are truthy (non-empty). -/
def regOnSignUpCommand (f : RegForm) : RegForm :=
  if f.name ≠ [] ∧ f.email ≠ [] ∧ f.password ≠ [] ∧ f.confirmPassword ≠ [] then
    { f with submits := f.submits + 1 }
  else f

/-- `RegisterPage.onNextCommand` (lines 58–78): advance the focused field in
registration order; from `confirmPassword`, submit only when all four fields
are non-empty. -/
def regOnNextCommand (f : RegForm) : RegForm :=
  match f.currentField with
  | .name => { f with currentField := .email }
  | .email => { f with currentField := .password }
  | .password => { f with currentField := .confirmPassword }
  | .confirmPassword =>
    if f.name ≠ [] ∧ f.email ≠ [] ∧ f.password ≠ [] ∧ f.confirmPassword ≠ [] then
      { f with submits := f.submits + 1 }
    else f

/-- The login form's data (`LoginPage`). -/
structure LoginForm where
  email : List Char
  password : List Char
  submits : Nat
deriving DecidableEq, Repr

/-- `LoginPage.onSignInCommand` (lines 352–356 of the page sources): submit
only when both email and password are truthy (non-empty). -/
def loginOnSignInCommand (f : LoginForm) : LoginForm :=
  if f.email ≠ [] ∧ f.password ≠ [] then { f with submits := f.submits + 1 } else f

/-- The config callback corresponding to a field. -/
def cbOf : Field → CB
  | .name => .name
  | .email => .email
  | .password => .password
  | .confirmPassword => .confirmPassword

/-! ## Helper lemmas -/

/-- If `p₁` is a prefix of `t` and `p₂` is a no-longer pattern that is not a
prefix of `p₁`, then `p₂` is not a prefix of `t` either. -/
theorem not_pref_of_longer_pref {p₁ p₂ t : List Char} (h1 : p₁ <+: t)
    (hlen : p₂.length ≤ p₁.length) (hnp : ¬ p₂ <+: p₁) : ¬ p₂ <+: t := by
  intro h2
  rcases List.prefix_or_prefix_of_prefix h2 h1 with h | h
  · exact hnp h
  · exact hnp (by rw [h.eq_of_length_le hlen])

/-- When the pattern is a prefix, JS `replace(pat, '')` strips exactly that
prefix. -/
theorem replaceFirst_of_pref {p s : List Char} (h : p <+: s) :
    replaceFirst p [] s = s.drop p.length := by
  have hb : p.isPrefixOf s = true := List.isPrefixOf_iff_prefix.mpr h
  cases s with
  | nil => simp [replaceFirst]
  | cons c rest => simp [replaceFirst, hb]

/-- A transcript containing "confirm" can never reach the password branch of
`processVoiceCommand`, so it never yields `SelectField(Password, _)`. -/
theorem not_selectField_password_of_confirm (cf : Option Field) (u v : List Char)
    (h : "confirm".toList <:+: u) :
    processVoiceCommand cf u ≠ Cmd.selectField .password v := by
  unfold processVoiceCommand
  split_ifs with g1 g2 g3 g4 g5 g6 g7 g8
  · simp
  · simp
  · simp
  · simp
  · simp
  · simp
  · exact absurd h g7.2
  · simp
  · cases cf <;> simp
  · cases cf <;> simp

example : processVoiceCommand none "next please".toList = .next := by decide
example : processVoiceCommand none "email jane at x".toList
    = .selectField .email "jane at x".toList := by decide
example : processVoiceCommand none "confirm password abc".toList
    = .selectField .confirmPassword "abc".toList := by decide
example : processVoiceCommand (some .email) "jane@example.com".toList
    = .directInput .email "jane@example.com".toList := by decide
example : processVoiceCommand none "go to sign up".toList = .goToSignUp := by decide
example : processVoiceCommand none "sign in".toList = .signIn := by decide
example : processVoiceCommand none "password hunter2".toList
    = .selectField .password "hunter2".toList := by decide

/-! ## Claim theorems -/

/-- C3: Transcript Gate deduplication.  For every non-empty transcript `t`
admitted by the gate (non-empty and different from the last admitted value),
the gate records it as admitted, forwards it to the Command Interpreter
exactly once — in the same step — logging exactly one batch of callback
invocations, and a second observation of the same value in direct succession
changes nothing: the interpreter is not re-invoked and no value callback is
invoked a second time. -/
theorem transcript_gate_dedup (hn hc : Bool) (g : GateState) (t : List Char)
    (hne : t ≠ []) (hdiff : t ≠ g.lastTranscript) :
    (gateObserve hn hc g t).lastTranscript = t ∧
    (gateObserve hn hc g t).forwarded = g.forwarded ++ [strToLower t] ∧
    (gateObserve hn hc g t).calls
      = g.calls ++ invoked hn hc (processVoiceCommand g.currentField (strToLower t)) ∧
    gateObserve hn hc (gateObserve hn hc g t) t = gateObserve hn hc g t := by
  unfold gateObserve
  rw [if_pos ⟨hne, hdiff⟩]
  refine ⟨rfl, rfl, rfl, ?_⟩
  rw [if_neg]
  simp

/-- Witness for C3 at the concrete transcript "next" from the initial gate
state. -/
theorem transcript_gate_dedup_witness :
    gateObserve true true (gateObserve true true initGate "next".toList) "next".toList
      = gateObserve true true initGate "next".toList ∧
    (gateObserve true true initGate "next".toList).forwarded = ["next".toList] :=
  ⟨(transcript_gate_dedup true true initGate "next".toList (by decide) (by decide)).2.2.2,
   (transcript_gate_dedup true true initGate "next".toList (by decide) (by decide)).2.1⟩

/-- C6: Guarded voice submission.  `LoginPage.onSignInCommand` submits only
when both email and password are non-empty and otherwise changes nothing;
`RegisterPage.onSignUpCommand` submits only when all four registration
fields are non-empty and otherwise changes nothing; `RegisterPage`'s
`Navigate(Next)` handler at `confirmPassword` submits when all four fields
are populated, and with any field empty it changes nothing — the focus stays
at `confirmPassword` and no submit is triggered. -/
theorem guarded_voice_submission :
    (∀ f : LoginForm, f.email ≠ [] → f.password ≠ [] →
      loginOnSignInCommand f = { f with submits := f.submits + 1 }) ∧
    (∀ f : LoginForm, f.email = [] ∨ f.password = [] → loginOnSignInCommand f = f) ∧
    (∀ f : RegForm, f.name ≠ [] → f.email ≠ [] → f.password ≠ [] →
      f.confirmPassword ≠ [] →
      regOnSignUpCommand f = { f with submits := f.submits + 1 }) ∧
    (∀ f : RegForm,
      f.name = [] ∨ f.email = [] ∨ f.password = [] ∨ f.confirmPassword = [] →
      regOnSignUpCommand f = f) ∧
    (∀ f : RegForm, f.currentField = .confirmPassword →
      f.name ≠ [] → f.email ≠ [] → f.password ≠ [] → f.confirmPassword ≠ [] →
      regOnNextCommand f = { f with submits := f.submits + 1 }) ∧
    (∀ f : RegForm, f.currentField = .confirmPassword →
      (f.name = [] ∨ f.email = [] ∨ f.password = [] ∨ f.confirmPassword = []) →
      regOnNextCommand f = f ∧ (regOnNextCommand f).currentField = .confirmPassword ∧
        (regOnNextCommand f).submits = f.submits) := by
  refine ⟨?_, ?_, ?_, ?_, ?_, ?_⟩
  · intro f h1 h2
    unfold loginOnSignInCommand
    rw [if_pos ⟨h1, h2⟩]
  · intro f h
    unfold loginOnSignInCommand
    rw [if_neg]
    rcases h with h | h <;> simp [h]
  · intro f h1 h2 h3 h4
    unfold regOnSignUpCommand
    rw [if_pos ⟨h1, h2, h3, h4⟩]
  · intro f h
    unfold regOnSignUpCommand
    rw [if_neg]
    rcases h with h | h | h | h <;> simp [h]
  · intro f hcf h1 h2 h3 h4
    obtain ⟨n, e, p, c, cf, s⟩ := f
    simp only at hcf
    subst hcf
    simp only [regOnNextCommand]
    rw [if_pos ⟨h1, h2, h3, h4⟩]
  · intro f hcf h
    obtain ⟨n, e, p, c, cf, s⟩ := f
    simp only at hcf
    subst hcf
    have : regOnNextCommand ⟨n, e, p, c, .confirmPassword, s⟩
        = ⟨n, e, p, c, .confirmPassword, s⟩ := by
      simp only [regOnNextCommand]
      rw [if_neg]
      rcases h with h | h | h | h <;> simp_all
    exact ⟨this, by rw [this], by rw [this]⟩

/-- Witness for C6 at concrete complete and incomplete forms. -/
theorem guarded_voice_submission_witness :
    loginOnSignInCommand ⟨['a'], ['b'], 0⟩ = ⟨['a'], ['b'], 0 + 1⟩ ∧
    loginOnSignInCommand ⟨[], ['b'], 0⟩ = ⟨[], ['b'], 0⟩ ∧
    regOnSignUpCommand ⟨['n'], ['e'], ['p'], ['p'], .name, 0⟩
      = ⟨['n'], ['e'], ['p'], ['p'], .name, 0 + 1⟩ ∧
    regOnNextCommand ⟨['n'], ['e'], ['p'], ['p'], .confirmPassword, 0⟩
      = ⟨['n'], ['e'], ['p'], ['p'], .confirmPassword, 0 + 1⟩ ∧
    regOnNextCommand ⟨[], ['e'], ['p'], ['p'], .confirmPassword, 0⟩
      = ⟨[], ['e'], ['p'], ['p'], .confirmPassword, 0⟩ :=
  ⟨guarded_voice_submission.1 ⟨['a'], ['b'], 0⟩ (by decide) (by decide),
   guarded_voice_submission.2.1 ⟨[], ['b'], 0⟩ (Or.inl rfl),
   guarded_voice_submission.2.2.1 ⟨['n'], ['e'], ['p'], ['p'], .name, 0⟩
     (by decide) (by decide) (by decide) (by decide),
   guarded_voice_submission.2.2.2.2.1 ⟨['n'], ['e'], ['p'], ['p'], .confirmPassword, 0⟩
     rfl (by decide) (by decide) (by decide) (by decide),
   (guarded_voice_submission.2.2.2.2.2 ⟨[], ['e'], ['p'], ['p'], .confirmPassword, 0⟩
     rfl (Or.inl rfl)).1⟩

/-- C7: Fallback classification.  For every non-empty transcript matching
none of the interpreter's navigation or field-selection guards, with a
current field `f` the interpreter yields `DirectInput(f, transcript)` —
invoking exactly the callback of `f` with the whole transcript — and the
field context is left unchanged; with no current field it yields `NoOp`,
which invokes no callback and changes no state. -/
theorem direct_input_fallback (t : List Char) (f : Field)
    (hne : t ≠ [])
    (h1 : ¬ ("go to sign up".toList <:+: t)) (h2 : ¬ ("signup page".toList <:+: t))
    (h3 : ¬ (("sign in".toList <:+: t) ∧ ¬ ("go to".toList <:+: t)))
    (h4 : ¬ (("sign up".toList <:+: t) ∧ ¬ ("go to".toList <:+: t)))
    (h5 : ¬ ("next".toList <:+: t))
    (h6 : ¬ ("name".toList <+: t)) (h7 : ¬ ("email".toList <+: t))
    (h8 : ¬ (("password".toList <+: t) ∧ ¬ ("confirm".toList <:+: t)))
    (h9 : ¬ ("confirm password".toList <+: t)) :
    processVoiceCommand (some f) t = .directInput f t ∧
    processVoiceCommand none t = .noOp ∧
    invoked true true (.directInput f t) = [(cbOf f, t)] ∧
    invoked true true .noOp = [] ∧
    fieldAfter (some f) (.directInput f t) = some f ∧
    fieldAfter none .noOp = none := by
  have hsome : processVoiceCommand (some f) t = .directInput f t := by
    unfold processVoiceCommand
    rw [if_neg (not_or.mpr ⟨h1, h2⟩), if_neg h3, if_neg h4, if_neg h5, if_neg h6,
      if_neg h7, if_neg h8, if_neg h9]
    simp [hne]
  have hnone : processVoiceCommand none t = .noOp := by
    unfold processVoiceCommand
    rw [if_neg (not_or.mpr ⟨h1, h2⟩), if_neg h3, if_neg h4, if_neg h5, if_neg h6,
      if_neg h7, if_neg h8, if_neg h9]
  refine ⟨hsome, hnone, ?_, rfl, rfl, rfl⟩
  cases f <;> rfl

/-- Witness for C7 at the concrete transcript "jane@example.com" with
current field `email`, and at an unrecognized transcript with no field. -/
theorem direct_input_fallback_witness :
    processVoiceCommand (some .email) "jane@example.com".toList
      = .directInput .email "jane@example.com".toList ∧
    processVoiceCommand none "jane@example.com".toList = .noOp :=
  ⟨(direct_input_fallback "jane@example.com".toList .email (by decide) (by decide)
      (by decide) (by decide) (by decide) (by decide) (by decide) (by decide)
      (by decide) (by decide)).1,
   (direct_input_fallback "jane@example.com".toList .email (by decide) (by decide)
      (by decide) (by decide) (by decide) (by decide) (by decide) (by decide)
      (by decide) (by decide)).2.1⟩

/-- C9: `startListening` error absorption.  It is a no-op when already
listening or when the engine is unsupported; otherwise it clears the
transcript and invokes the engine's start primitive exactly once, and when
that primitive throws synchronously the listening flag is forced false.  The
step function is total: no exception crosses the public boundary. -/
theorem startListening_error_absorption (s : RecState) (th : Bool) :
    (s.isListening = true → recStep s (.startListening th) = s) ∧
    (s.isSupported = false → recStep s (.startListening th) = s) ∧
    (s.isSupported = true → s.isListening = false →
      recStep s (.startListening th)
        = { s with
              transcript := []
              startCalls := s.startCalls + 1
              isListening := false }) := by
  refine ⟨?_, ?_, ?_⟩
  · intro h
    simp [recStep, h]
  · intro h
    simp [recStep, h]
  · intro hs hl
    cases th <;> simp [recStep, hs, hl]

/-- Witness for C9: a listening state is unchanged, an unsupported state is
unchanged, and a supported idle state gets its transcript cleared, one start
call, and (with a synchronous throw) listening forced false. -/
theorem startListening_error_absorption_witness :
    recStep { (initRec true) with isListening := true } (.startListening false)
      = { (initRec true) with isListening := true } ∧
    recStep (initRec false) (.startListening true) = initRec false ∧
    recStep (initRec true) (.startListening true)
      = { (initRec true) with
            transcript := []
            startCalls := 0 + 1
            isListening := false } :=
  ⟨(startListening_error_absorption { (initRec true) with isListening := true } false).1 rfl,
   (startListening_error_absorption (initRec false) true).2.1 rfl,
   (startListening_error_absorption (initRec true) true).2.2 rfl rfl⟩

/-- C1 counterexample: start a session, get a no-speech error, let the single
scheduled retry fire and start a new session, and let that session end in
another no-speech error.  The claim asserts zero further automatic start
invocations then occur; the code has scheduled one more retry
(`pendingRetries = 1`), and firing it performs a second automatic start
(`autoStarts = 2`). -/
theorem no_speech_retry_counterexample :
    (recRun (initRec true) [.startListening false, .onstart,
        .onerror "no-speech".toList, .retryTimer false, .onstart,
        .onerror "no-speech".toList]).autoStarts = 1 ∧
    (recRun (initRec true) [.startListening false, .onstart,
        .onerror "no-speech".toList, .retryTimer false, .onstart,
        .onerror "no-speech".toList]).pendingRetries = 1 ∧
    (recStep (recRun (initRec true) [.startListening false, .onstart,
        .onerror "no-speech".toList, .retryTimer false, .onstart,
        .onerror "no-speech".toList]) (.retryTimer false)).autoStarts = 2 := by
  decide

/-- C1 amended: every no-speech error event schedules exactly one automatic
delayed retry; other error kinds schedule none; firing a retry consumes its
timer, never reschedules from within the handler (a synchronous start
failure is only logged), and invokes the start primitive at most once.  The
bound is therefore one extra attempt per no-speech *error event*, not one
per original stop: a retried session that again errors with no-speech gets
one further automatic retry. -/
theorem no_speech_retry_per_error (s : RecState) (k : List Char) (th : Bool) :
    (recStep s (.onerror "no-speech".toList)).pendingRetries = s.pendingRetries + 1 ∧
    (k ≠ "no-speech".toList → (recStep s (.onerror k)).pendingRetries = s.pendingRetries) ∧
    (recStep s (.retryTimer th)).pendingRetries = s.pendingRetries - 1 ∧
    (recStep s (.retryTimer th)).autoStarts ≤ s.autoStarts + 1 := by
  refine ⟨by simp [recStep], ?_, ?_, ?_⟩
  · intro h
    simp only [recStep]
    rw [if_neg h]
  · simp only [recStep]
    split_ifs with h1 h2 <;> simp [h1]
  · simp only [recStep]
    split_ifs with h1 h2 <;> simp

/-- Witness for C1 (amended) at the initial state with a distinct error
kind. -/
theorem no_speech_retry_per_error_witness :
    (recStep (initRec true) (.onerror "no-speech".toList)).pendingRetries = 0 + 1 ∧
    (recStep (initRec true) (.onerror "network".toList)).pendingRetries = 0 :=
  ⟨(no_speech_retry_per_error (initRec true) "network".toList false).1,
   (no_speech_retry_per_error (initRec true) "network".toList false).2.1 (by decide)⟩

/-- C2 counterexample: the transcript "confirm password next" contains
"confirm password" followed by the text "next", yet for every field context
the interpreter classifies it as `Navigate(Next)` (the navigation rules run
first), not as `SelectField(ConfirmPassword, "next")`. -/
theorem confirm_password_counterexample :
    processVoiceCommand none "confirm password next".toList = .next ∧
    processVoiceCommand (some .confirmPassword) "confirm password next".toList = .next ∧
    Cmd.next ≠ .selectField .confirmPassword "next".toList := by
  decide

/-- C2 amended: for every transcript that *starts with* "confirm password"
and contains none of the navigation keywords ("signup page", "sign in",
"sign up", "next"), and for every current field context, the interpreter
produces `SelectField(ConfirmPassword, X)` with `X` the remainder after
stripping the literal prefix, trimmed (the confirm-password callback is
invoked with `X` when `X` is non-empty); and no transcript containing
"confirm password" ever produces `SelectField(Password, _)`. -/
theorem confirm_password_rule (t : List Char)
    (h0 : "confirm password".toList <+: t)
    (h1 : ¬ ("signup page".toList <:+: t))
    (h2 : ¬ ("sign in".toList <:+: t))
    (h3 : ¬ ("sign up".toList <:+: t))
    (h4 : ¬ ("next".toList <:+: t)) :
    (∀ cf : Option Field,
      processVoiceCommand cf t
        = .selectField .confirmPassword
            (trim (replaceFirst "confirm password".toList [] t))) ∧
    replaceFirst "confirm password".toList [] t
      = t.drop "confirm password".toList.length ∧
    (trim (replaceFirst "confirm password".toList [] t) ≠ [] →
      invoked true true
          (.selectField .confirmPassword
            (trim (replaceFirst "confirm password".toList [] t)))
        = [(.confirmPassword, trim (replaceFirst "confirm password".toList [] t))]) ∧
    (∀ (cf : Option Field) (u v : List Char), "confirm password".toList <:+: u →
      processVoiceCommand cf u ≠ .selectField .password v) := by
  have hgo : ¬ ("go to sign up".toList <:+: t) := fun hgt =>
    h3 ((by decide : "sign up".toList <:+: "go to sign up".toList).trans hgt)
  refine ⟨?_, replaceFirst_of_pref h0, ?_, ?_⟩
  · intro cf
    unfold processVoiceCommand
    rw [if_neg (not_or.mpr ⟨hgo, h1⟩), if_neg (fun hg => h2 hg.1),
      if_neg (fun hg => h3 hg.1), if_neg h4,
      if_neg (not_pref_of_longer_pref h0 (by decide) (by decide)),
      if_neg (not_pref_of_longer_pref h0 (by decide) (by decide)),
      if_neg (fun hg => not_pref_of_longer_pref h0 (by decide) (by decide) hg.1),
      if_pos h0]
  · intro hv
    simp only [invoked]
    rw [if_pos ⟨hv, trivial⟩]
  · intro cf u v hu
    exact not_selectField_password_of_confirm cf u v
      ((by decide : "confirm".toList <:+: "confirm password".toList).trans hu)

/-- Witness for C2 (amended) at the transcript "confirm password abc123"
with current field `password`. -/
theorem confirm_password_rule_witness :
    processVoiceCommand (some .password) "confirm password abc123".toList
      = .selectField .confirmPassword
          (trim (replaceFirst "confirm password".toList []
            "confirm password abc123".toList)) ∧
    trim (replaceFirst "confirm password".toList []
        "confirm password abc123".toList) = "abc123".toList :=
  ⟨(confirm_password_rule "confirm password abc123".toList (by decide) (by decide)
      (by decide) (by decide) (by decide)).1 (some .password),
   by decide⟩

/-- C4 counterexample: the dedup record is overwritten, not permanent.
After admitting "next", then "hello", a third transcript again equal to
"next" is admitted and forwarded a second time, and the `next` callback
fires twice — so an admitted transcript is not blocked for the lifetime of
the component, only until a different transcript is admitted. -/
theorem dedup_lifetime_counterexample :
    (gateObserve true true initGate "next".toList).forwarded = ["next".toList] ∧
    (gateObserve true true
        (gateObserve true true
          (gateObserve true true initGate "next".toList) "hello".toList)
        "next".toList).forwarded
      = ["next".toList, "hello".toList, "next".toList] ∧
    (gateObserve true true
        (gateObserve true true
          (gateObserve true true initGate "next".toList) "hello".toList)
        "next".toList).calls
      = [(CB.next, []), (CB.next, [])] := by
  decide

/-- C4 amended: the dedup record is never cleared — observing the empty
transcript (the state after the scheduled reset fires) changes nothing, and
a transcript equal to the current record is never forwarded, so repeating
the same utterance in direct succession triggers its callback only the first
time.  But the record is overwritten by each newly admitted transcript, so
after a different utterance is admitted in between, the same value is
forwarded again. -/
theorem dedup_record_never_cleared (hn hc : Bool) (g : GateState) (t : List Char) :
    gateObserve hn hc g [] = g ∧
    (t = g.lastTranscript → gateObserve hn hc g t = g) ∧
    ((gateObserve hn hc g t).lastTranscript = t ∨
      (gateObserve hn hc g t).lastTranscript = g.lastTranscript) := by
  refine ⟨by simp [gateObserve], ?_, ?_⟩
  · intro h
    unfold gateObserve
    rw [if_neg]
    simp [h]
  · unfold gateObserve
    split_ifs <;> simp

/-- Witness for C4 (amended): saying "next" twice in a row forwards it only
once. -/
theorem dedup_record_never_cleared_witness :
    gateObserve true true (gateObserve true true initGate "next".toList)
        "next".toList
      = gateObserve true true initGate "next".toList :=
  (dedup_record_never_cleared true true
      (gateObserve true true initGate "next".toList) "next".toList).2.1 (by decide)

/-- C5 counterexample: a session that starts and receives a final result has
its transcript freshly set to the non-empty value "hello" while `listening`
is still true — `onresult` does not end the listening session; only the
later `onend`/`onerror` clears the flag. -/
theorem listening_invariant_counterexample :
    (recRun (initRec true) [.startListening false, .onstart]).transcript = [] ∧
    (recRun (initRec true) [.startListening false, .onstart,
        .onresult true "hello".toList]).transcript = "hello".toList ∧
    "hello".toList ≠ ([] : List Char) ∧
    (recRun (initRec true) [.startListening false, .onstart,
        .onresult true "hello".toList]).isListening = true := by
  decide

/-- C5 amended: `onresult` publishes the trimmed final transcript and leaves
the `listening` flag unchanged (so at the instant the transcript is freshly
set, listening is still whatever the session state was); the flag becomes
false only at the subsequent `onend` (or `onerror`), after which the
finalized transcript persists with `listening = false`. -/
theorem listening_cleared_after_onend (s : RecState) (isFinal : Bool) (text : List Char) :
    (recStep s (.onresult isFinal text)).isListening = s.isListening ∧
    (recStep s (.onresult true text)).transcript = trim text ∧
    (recStep (recStep s (.onresult true text)) .onend).isListening = false ∧
    (recStep (recStep s (.onresult true text)) .onend).transcript = trim text ∧
    (recStep (recStep s (.onresult true text))
        (.onerror "no-speech".toList)).isListening = false := by
  cases isFinal <;> simp [recStep]

/-- C8 counterexample: on admitting the transcript "next", the effect body
performs the `lastProcessedTranscript` update as its first action and the
interpretation as its second — the guard is updated before interpretation
begins, not after it. -/
theorem guard_update_order_counterexample :
    gateEffectActions [] "next".toList
      = [.updateLast "next".toList, .interpret "next".toList, .scheduleReset] ∧
    (gateEffectActions [] "next".toList).indexOf
        (GateAction.updateLast "next".toList) = 0 ∧
    (gateEffectActions [] "next".toList).indexOf
        (GateAction.interpret "next".toList) = 1 := by
  decide

/-- C8 amended: for every admitted transcript, the guard
`lastProcessedTranscript` is updated immediately *before* interpretation, as
the first action of the same admission step (interpretation is total and
cannot fail, so the guard is recorded exactly for the transcripts that get
interpreted). -/
theorem guard_updated_before_interpretation (last t : List Char)
    (h1 : t ≠ []) (h2 : t ≠ last) :
    gateEffectActions last t
      = [.updateLast t, .interpret (strToLower t), .scheduleReset] := by
  unfold gateEffectActions
  rw [if_pos ⟨h1, h2⟩]

/-- Witness for C8 (amended) at the transcript "sign in". -/
theorem guard_updated_before_interpretation_witness :
    gateEffectActions "next".toList "sign in".toList
      = [.updateLast "sign in".toList, .interpret (strToLower "sign in".toList),
          .scheduleReset] :=
  guard_updated_before_interpretation "next".toList "sign in".toList
    (by decide) (by decide)

/-- C10 counterexample: for the transcript
"email john dot doe at example dot com" the interpreter's inline value is
"john dot doe at example dot com" (only the "email" prefix stripped and
trimmed) — not "john doe at example dot com" — and the caller's
normalization (strip all whitespace, lower-case) stores
"johndotdoeatexampledotcom", not "johndoeatexampledotcom". -/
theorem email_normalization_counterexample :
    processVoiceCommand none
        (strToLower "email john dot doe at example dot com".toList)
      = .selectField .email
          (trim (replaceFirst "email".toList []
            (strToLower "email john dot doe at example dot com".toList))) ∧
    trim (replaceFirst "email".toList []
        (strToLower "email john dot doe at example dot com".toList))
      = "john dot doe at example dot com".toList ∧
    "john dot doe at example dot com".toList
      ≠ "john doe at example dot com".toList ∧
    normalizeEmail "john dot doe at example dot com".toList
      = "johndotdoeatexampledotcom".toList ∧
    "johndotdoeatexampledotcom".toList ≠ "johndoeatexampledotcom".toList := by
  decide

/-- C10 amended: for the transcript
"email john dot doe at example dot com", the interpreter passes the inline
value "john dot doe at example dot com" through unmodified (only the "email"
prefix stripped and trimmed) to the email callback, the caller's own
normalization — stripping all whitespace and lower-casing — yields the
stored value "johndotdoeatexampledotcom", and the resulting current field is
`email`. -/
theorem email_passthrough_and_normalization :
    processVoiceCommand none
        (strToLower "email john dot doe at example dot com".toList)
      = .selectField .email "john dot doe at example dot com".toList ∧
    invoked true true (processVoiceCommand none
        (strToLower "email john dot doe at example dot com".toList))
      = [(.email, "john dot doe at example dot com".toList)] ∧
    fieldAfter none (processVoiceCommand none
        (strToLower "email john dot doe at example dot com".toList))
      = some .email ∧
    normalizeEmail "john dot doe at example dot com".toList
      = "johndotdoeatexampledotcom".toList := by
  decide

end VoiceAssistant
